import Mathlib

/-!
Verification of the dense-retrieval training/evaluation engine in
`simpletransformers/retrieval/retrieval_model.py`.

The Python code is shallowly embedded: tensors of real numbers become lists of
rationals (`List ℚ`, the operations used — dot products, comparisons,
subtraction, division — are exact on the inputs considered), stateful loop
bookkeeping becomes explicit state records and fold functions, and fallible
code returns `Except`.  Python locals that may be read before assignment are
modelled with `Option` (`none` = unbound), since reading such a local raises
`UnboundLocalError`.
-/

namespace RetrievalModel

/-! ### Batch label construction — `_get_inputs_dict` (lines 2358–2507)

`labels = [i for i in range(len(batch["context_ids"]))]`.

Training branch (`not evaluate`): context rows are the batch's contexts,
optionally concatenated with the hard-negative rows.

Evaluation branch: `shuffled_indices = torch.randperm(len(labels))`;
`labels = labels[shuffled_indices]` and the context rows are
`batch["context_ids"][shuffled_indices]` (optionally followed by the
hard-negative rows).  The permutation drawn by `randperm` is a parameter
here. -/

/-- `labels = [i for i in range(n)]` (line 2361). -/
def initialLabels (n : ℕ) : List ℕ := List.range n

/-- Training-mode context rows (lines 2364–2384): contexts, with the
hard-negative rows concatenated after them when `args.hard_negatives`. -/
def contextRowsTrain {α : Type} (contexts hardNegs : List α)
    (hard_negatives : Bool) : List α :=
  if hard_negatives then contexts ++ hardNegs else contexts

/-- Training-mode labels: the unshuffled `[0 .. n-1]` (lines 2361–2362). -/
def labelsTrain (n : ℕ) : List ℕ := initialLabels n

/-- Evaluation-mode labels (line 2470): `labels[shuffled_indices]`, i.e. entry
`i` is `initialLabels[perm[i]]`. -/
def labelsEval (n : ℕ) (perm : List ℕ) : List ℕ :=
  perm.map (fun j => (initialLabels n).getD j 0)

/-- Evaluation-mode context rows (lines 2472–2489):
`batch["context_ids"][shuffled_indices]`, with hard negatives appended when
both `hard_negatives` and `hard_negatives_in_eval` are set. -/
def contextRowsEval {α : Type} [Inhabited α] (contexts hardNegs : List α)
    (perm : List ℕ) (hard_negatives hard_negatives_in_eval : Bool) : List α :=
  let shuffled := perm.map (fun j => contexts.getD j default)
  if hard_negatives && hard_negatives_in_eval then shuffled ++ hardNegs
  else shuffled

/-- The batch invariant from the spec: the row at column `labels[i]` of the
concatenated context matrix is query `i`'s true positive context — and query
`i`'s positive is `batch["context_ids"][i]`, since the query rows are never
shuffled. -/
def labelInvariant {α : Type} [Inhabited α]
    (contexts rows : List α) (labels : List ℕ) : Prop :=
  ∀ i, i < labels.length → rows.getD (labels.getD i 0) default = contexts.getD i default

/-- In training mode the invariant does hold: labels are `[0..n-1]` and the
context rows start with the positives in query order. -/
theorem labelInvariant_train {α : Type} [Inhabited α]
    (contexts hardNegs : List α) (hard_negatives : Bool) :
    labelInvariant contexts (contextRowsTrain contexts hardNegs hard_negatives)
      (labelsTrain contexts.length) := by
  intro i hi
  simp only [labelsTrain, initialLabels, List.length_range] at hi
  have hlab : (labelsTrain contexts.length).getD i 0 = i := by
    simp [labelsTrain, initialLabels, List.getD_eq_getElem?_getD, hi]
  rw [hlab]
  cases hard_negatives with
  | false => simp [contextRowsTrain]
  | true =>
      simp only [contextRowsTrain, if_pos]
      rw [List.getD_eq_getElem?_getD, List.getElem?_append_left (by omega),
        ← List.getD_eq_getElem?_getD]

/-- C1: For every batch processed by `_get_inputs_dict`, in training mode and in
evaluation mode (where the context rows are randomly shuffled before use), the
returned labels satisfy the batch invariant: for every query index `i`, the row
at column `labels[i]` of the concatenated context matrix is query `i`'s true
positive context.

This FAILS on the code in evaluation mode.  The shuffle applies the same
permutation to both the labels and the context rows, but the invariant needs
the labels to be the *inverse* permutation: with contexts `[10, 20, 30]` and
`randperm` returning `[1, 2, 0]`, the shuffled rows are `[20, 30, 10]` and the
labels are `[1, 2, 0]`, so `rows[labels[0]] = rows[1] = 30 ≠ 10` although
query 0's true positive is context `10`.  This theorem evaluates the code at
that failing input. -/
theorem getInputsDict_eval_label_invariant_violated :
    ¬ labelInvariant (α := ℕ) [10, 20, 30]
        (contextRowsEval [10, 20, 30] [] [1, 2, 0] false false)
        (labelsEval 3 [1, 2, 0]) := by
  intro h
  have := h 0 (by decide)
  simp [contextRowsEval, labelsEval, initialLabels] at this

/-! ### Early-stopping bookkeeping — `train` (lines 602–1143)

`best_eval_metric = None` and `early_stopping_counter = 0` at the start of
training (lines 611–612).  After each in-training evaluation the block at
lines 869–971 runs (the per-epoch site at lines 1034–1136 repeats the same
comparisons).  Metric values are modelled as rationals; the comparisons and
subtractions performed by the code are exact on them.

Python truthiness matters here: `if not best_eval_metric:` (line 869) and
`if best_eval_metric and args.early_stopping_metric_minimize:` (line 880)
treat both `None` and `0.0` as false. -/

/-- Configuration fields consulted by the early-stopping block. -/
structure ESArgs where
  use_early_stopping : Bool
  early_stopping_metric_minimize : Bool
  early_stopping_delta : ℚ
  early_stopping_patience : ℕ
  save_best_model : Bool
deriving DecidableEq

/-- The mutable training state touched by the early-stopping block:
`best_eval_metric` (`none` = Python `None`) and `early_stopping_counter`. -/
structure ESState where
  best_eval_metric : Option ℚ
  early_stopping_counter : ℕ
deriving DecidableEq

/-- Outcome of one evaluation's early-stopping block: the updated state,
whether a best-model checkpoint was saved during this evaluation, and whether
the training loop returns (early termination). -/
structure ESResult where
  state : ESState
  saved_best : Bool
  stop : Bool
deriving DecidableEq

/-- Python falsiness of `best_eval_metric`: `None` or `0.0`. -/
def pyFalsy : Option ℚ → Bool
  | Option.none => true
  | Option.some x => x == 0

/-- The early-stopping block run after one evaluation (lines 869–971).

* `if not best_eval_metric:` initialize best to the current metric and save a
  best-model checkpoint (lines 869–879).
* `if best_eval_metric and args.early_stopping_metric_minimize:` improvement
  test `results[metric] - best_eval_metric < args.early_stopping_delta`
  (lines 880–895); on improvement update best, save best checkpoint, reset
  counter; otherwise, when `args.use_early_stopping`, increment the counter
  while `early_stopping_counter < args.early_stopping_patience` and stop
  (return from `train`) once it is not (lines 896–925).
* otherwise (maximize direction, also taken when `best_eval_metric` is `0.0`)
  the improvement test is
  `results[metric] - best_eval_metric > args.early_stopping_delta`
  (lines 926–971), with the same bookkeeping. -/
def evalEndCheck (args : ESArgs) (st : ESState) (m : ℚ) : ESResult :=
  let best : ℚ := if pyFalsy st.best_eval_metric then m
    else st.best_eval_metric.getD m
  let saved0 : Bool := pyFalsy st.best_eval_metric && args.save_best_model
  if best ≠ 0 ∧ args.early_stopping_metric_minimize = true then
    if m - best < args.early_stopping_delta then
      ⟨⟨some m, 0⟩, saved0 || args.save_best_model, false⟩
    else if args.use_early_stopping then
      if st.early_stopping_counter < args.early_stopping_patience then
        ⟨⟨some best, st.early_stopping_counter + 1⟩, saved0, false⟩
      else
        ⟨⟨some best, st.early_stopping_counter⟩, saved0, true⟩
    else
      ⟨⟨some best, st.early_stopping_counter⟩, saved0, false⟩
  else
    if m - best > args.early_stopping_delta then
      ⟨⟨some m, 0⟩, saved0 || args.save_best_model, false⟩
    else if args.use_early_stopping then
      if st.early_stopping_counter < args.early_stopping_patience then
        ⟨⟨some best, st.early_stopping_counter + 1⟩, saved0, false⟩
      else
        ⟨⟨some best, st.early_stopping_counter⟩, saved0, true⟩
    else
      ⟨⟨some best, st.early_stopping_counter⟩, saved0, false⟩

/-- The training loop at evaluation granularity.  Each element of the stream
is `(global_step, monitored metric)` for one in-training evaluation; the code
between evaluations does not touch `best_eval_metric`, the counter, or
`training_progress_scores`.  Before the early-stopping block the evaluation is
appended to `training_progress_scores` (lines 854–857); on early termination
`train` returns `(global_step, training_progress_scores)` (lines 920–925,
`evaluate_during_training` being set).  `Sum.inl` is that early return;
`Sum.inr` means the stream was exhausted without early stopping. -/
def trainEvalLoop (args : ESArgs) :
    ESState → List (ℕ × ℚ) → List (ℕ × ℚ) →
      (ℕ × List (ℕ × ℚ)) ⊕ (ESState × List (ℕ × ℚ))
  | st, acc, [] => Sum.inr (st, acc)
  | st, acc, (gs, m) :: rest =>
      let acc2 := acc ++ [(gs, m)]
      let r := evalEndCheck args st m
      if r.stop then Sum.inl (gs, acc2)
      else trainEvalLoop args r.state acc2 rest

/-- One-step unfolding of `trainEvalLoop` on a nonempty stream. -/
lemma trainEvalLoop_cons (args : ESArgs) (st : ESState) (acc : List (ℕ × ℚ))
    (gs : ℕ) (m : ℚ) (rest : List (ℕ × ℚ)) :
    trainEvalLoop args st acc ((gs, m) :: rest)
      = if (evalEndCheck args st m).stop then Sum.inl (gs, acc ++ [(gs, m)])
        else trainEvalLoop args (evalEndCheck args st m).state
          (acc ++ [(gs, m)]) rest := rfl

/-- The claim's premise, computably: every evaluation in the list fails to
improve on the best-seen value by at least `early_stopping_delta` (trivially
true while no best value exists yet). -/
def failsToImproveB (args : ESArgs) : ESState → List ℚ → Bool
  | _, [] => true
  | st, m :: rest =>
      (match st.best_eval_metric with
       | Option.none => true
       | Option.some b => decide (m - b < args.early_stopping_delta)) &&
      failsToImproveB args (evalEndCheck args st m).state rest

/-- In maximize mode, with `0 ≤ delta`, an evaluation failing to improve on
the best-seen value by at least `delta` while the counter is below the
patience limit increments the counter and does not stop. -/
lemma evalEndCheck_nonimp_continue (args : ESArgs)
    (hmin : args.early_stopping_metric_minimize = false)
    (hES : args.use_early_stopping = true)
    (hδ : 0 ≤ args.early_stopping_delta)
    (st : ESState) (m : ℚ)
    (hni : (match st.best_eval_metric with
            | Option.none => true
            | Option.some b => decide (m - b < args.early_stopping_delta)) = true)
    (hc : st.early_stopping_counter < args.early_stopping_patience) :
    (evalEndCheck args st m).stop = false ∧
      (evalEndCheck args st m).state.early_stopping_counter
        = st.early_stopping_counter + 1 := by
  unfold evalEndCheck
  have hbest : ¬ (m - (if pyFalsy st.best_eval_metric then m
      else st.best_eval_metric.getD m) > args.early_stopping_delta) := by
    cases hb : st.best_eval_metric with
    | none => simp [pyFalsy]; linarith
    | some b =>
        by_cases hb0 : b = 0
        · simp [pyFalsy, hb0]; linarith
        · have : m - b < args.early_stopping_delta := by
            rw [hb] at hni; exact of_decide_eq_true hni
          simp [pyFalsy, hb0]
          linarith
  simp only [hmin, Bool.false_eq_true, and_false, if_false, hES, if_true,
    if_neg hbest, if_pos hc]
  simp

/-- In maximize mode, with `0 ≤ delta`, a non-improving evaluation with the
counter already at the patience limit stops the training loop. -/
lemma evalEndCheck_nonimp_stop (args : ESArgs)
    (hmin : args.early_stopping_metric_minimize = false)
    (hES : args.use_early_stopping = true)
    (hδ : 0 ≤ args.early_stopping_delta)
    (st : ESState) (m : ℚ)
    (hni : (match st.best_eval_metric with
            | Option.none => true
            | Option.some b => decide (m - b < args.early_stopping_delta)) = true)
    (hc : ¬ st.early_stopping_counter < args.early_stopping_patience) :
    (evalEndCheck args st m).stop = true := by
  unfold evalEndCheck
  have hbest : ¬ (m - (if pyFalsy st.best_eval_metric then m
      else st.best_eval_metric.getD m) > args.early_stopping_delta) := by
    cases hb : st.best_eval_metric with
    | none => simp [pyFalsy]; linarith
    | some b =>
        by_cases hb0 : b = 0
        · simp [pyFalsy, hb0]; linarith
        · have : m - b < args.early_stopping_delta := by
            rw [hb] at hni; exact of_decide_eq_true hni
          simp [pyFalsy, hb0]
          linarith
  simp only [hmin, Bool.false_eq_true, and_false, if_false, hES, if_true,
    if_neg hbest, if_neg hc]

/-- Core induction for the early-stopping run: starting from a counter value
such that `counter + (number of remaining non-improving evaluations)` equals
`patience + 1`, the loop returns at exactly the last of those evaluations,
with the progress history extended by all of them, regardless of any further
queued evaluations. -/
lemma trainEvalLoop_stops_at_last (args : ESArgs)
    (hmin : args.early_stopping_metric_minimize = false)
    (hES : args.use_early_stopping = true)
    (hδ : 0 ≤ args.early_stopping_delta) :
    ∀ (evals : List (ℕ × ℚ)) (hne : evals ≠ []) (st : ESState)
      (acc rest : List (ℕ × ℚ)),
      failsToImproveB args st (evals.map Prod.snd) = true →
      st.early_stopping_counter + evals.length
          = args.early_stopping_patience + 1 →
      trainEvalLoop args st acc (evals ++ rest)
        = Sum.inl ((evals.getLast hne).1, acc ++ evals) := by
  intro evals
  induction evals with
  | nil => intro hne; exact absurd rfl hne
  | cons e tl ih =>
      intro _ st acc rest hni hcount
      obtain ⟨gs, m⟩ := e
      simp only [List.map_cons, failsToImproveB, Bool.and_eq_true] at hni
      cases tl with
      | nil =>
          have hc : ¬ st.early_stopping_counter < args.early_stopping_patience := by
            simp only [List.length_singleton] at hcount; omega
          have hstop := evalEndCheck_nonimp_stop args hmin hES hδ st m hni.1 hc
          rw [List.cons_append, List.nil_append, trainEvalLoop_cons, if_pos hstop]
          simp
      | cons e2 tl2 =>
          have hc : st.early_stopping_counter < args.early_stopping_patience := by
            simp only [List.length_cons] at hcount; omega
          have hcont := evalEndCheck_nonimp_continue args hmin hES hδ st m hni.1 hc
          have hne2 : e2 :: tl2 ≠ [] := by simp
          have hrec := ih hne2 (evalEndCheck args st m).state (acc ++ [(gs, m)]) rest
            hni.2 (by rw [hcont.2]; simp only [List.length_cons] at hcount ⊢; omega)
          rw [List.cons_append, trainEvalLoop_cons, if_neg (by simp [hcont.1]), hrec]
          simp [List.getLast_cons]

/-- C2: During training with `evaluate_during_training`, `use_early_stopping`,
per-step evaluation, and direction maximize, for every run whose
monitored-metric sequence fails to improve on the best-seen value by at least
`early_stopping_delta` for `early_stopping_patience + 1` consecutive
evaluations, the training loop terminates immediately after the
`(patience+1)`-th such evaluation — any further queued evaluations `rest` are
never processed — and returns the `global_step` at that point together with
the training-progress history. -/
theorem early_stopping_maximize_terminates (args : ESArgs)
    (hES : args.use_early_stopping = true)
    (hmin : args.early_stopping_metric_minimize = false)
    (hδ : 0 ≤ args.early_stopping_delta)
    (st : ESState) (hc0 : st.early_stopping_counter = 0)
    (acc evals rest : List (ℕ × ℚ)) (hne : evals ≠ [])
    (hlen : evals.length = args.early_stopping_patience + 1)
    (hni : failsToImproveB args st (evals.map Prod.snd) = true) :
    trainEvalLoop args st acc (evals ++ rest)
      = Sum.inl ((evals.getLast hne).1, acc ++ evals) :=
  trainEvalLoop_stops_at_last args hmin hES hδ evals hne st acc rest hni
    (by rw [hc0, hlen]; omega)

/-- Witness for C2: patience 1, delta 0, metrics 5 then 4 at steps 50 and 100;
the loop stops at the second evaluation and returns step 100 with both
evaluations in the history, never reaching the third queued evaluation. -/
theorem early_stopping_maximize_terminates_witness :
    trainEvalLoop ⟨true, false, 0, 1, true⟩ ⟨Option.none, 0⟩ []
        ([(50, 5), (100, 4)] ++ [(150, 9)])
      = Sum.inl (100, [(50, 5), (100, 4)]) :=
  early_stopping_maximize_terminates ⟨true, false, 0, 1, true⟩ rfl rfl
    (by norm_num) ⟨Option.none, 0⟩ rfl [] [(50, 5), (100, 4)] [(150, 9)]
    (by simp) (by simp)
    (by norm_num [failsToImproveB, evalEndCheck, pyFalsy])

/-- C3 counterexample: with direction minimize, `early_stopping_delta = 1/100`,
best-seen value `3`, counter `1`, the next metric `601/200 = 3.005` does NOT
improve on the best-seen value by at least `delta` (it is strictly worse), yet
the code's improvement test `results[metric] - best_eval_metric < delta`
(line 881) succeeds: the best value is updated upward to `3.005`, a best
checkpoint is saved, and the patience counter is reset to `0` instead of being
incremented to `2`.  This refutes the claim as stated. -/
theorem early_stopping_minimize_delta_counterexample :
    (evalEndCheck ⟨true, true, 1/100, 5, true⟩ ⟨some 3, 1⟩ (601/200)).state
        = ⟨some (601/200), 0⟩ ∧
      (evalEndCheck ⟨true, true, 1/100, 5, true⟩ ⟨some 3, 1⟩ (601/200)).saved_best
        = true ∧
      ¬ ((3 : ℚ) - 601/200 ≥ 1/100) := by
  refine ⟨?_, ?_, by norm_num⟩ <;>
    norm_num [evalEndCheck, pyFalsy]

/-- C3 amended: during training with direction minimize (and early stopping in
use, the counter below the patience limit, and a nonzero best-seen value, so
that Python truthiness keeps the code in the minimize branch), after every
evaluation the best value is updated, a best checkpoint is saved, and the
patience counter is reset exactly when the new metric `m` satisfies
`m - best < early_stopping_delta` — i.e. when `m` lies below `best + delta`,
which also admits metrics that are equal to or worse than the best by less
than `delta` (the best value can then move upward); on every other evaluation
the best value stays unchanged and the patience counter is incremented. -/
theorem early_stopping_minimize_update_iff (args : ESArgs)
    (hmin : args.early_stopping_metric_minimize = true)
    (hES : args.use_early_stopping = true)
    (hsave : args.save_best_model = true)
    (b m : ℚ) (hb : b ≠ 0) (c : ℕ)
    (hc : c < args.early_stopping_patience) :
    (if m - b < args.early_stopping_delta then
        (evalEndCheck args ⟨some b, c⟩ m).state = ⟨some m, 0⟩ ∧
          (evalEndCheck args ⟨some b, c⟩ m).saved_best = true
      else
        (evalEndCheck args ⟨some b, c⟩ m).state = ⟨some b, c + 1⟩ ∧
          (evalEndCheck args ⟨some b, c⟩ m).saved_best = false) ∧
      (evalEndCheck args ⟨some b, c⟩ m).stop = false := by
  by_cases him : m - b < args.early_stopping_delta
  · rw [if_pos him]
    simp [evalEndCheck, pyFalsy, hb, hmin, hES, hsave, him, hc]
  · rw [if_neg him]
    simp [evalEndCheck, pyFalsy, hb, hmin, hES, him, hc]

/-- Witness for the amended C3: delta `1/100`, best `3`, counter `1`; the
improving metric `601/200` updates best/saves/resets, and (applying the
theorem at metric `4` as well) the non-improving metric `4` leaves best at `3`
and increments the counter to `2`. -/
theorem early_stopping_minimize_update_iff_witness :
    ((evalEndCheck ⟨true, true, 1/100, 5, true⟩ ⟨some 3, 1⟩ (601/200)).state
        = ⟨some (601/200), 0⟩ ∧
      (evalEndCheck ⟨true, true, 1/100, 5, true⟩ ⟨some 3, 1⟩ (601/200)).saved_best
        = true) ∧
    ((evalEndCheck ⟨true, true, 1/100, 5, true⟩ ⟨some 3, 1⟩ 4).state
        = ⟨some 3, 2⟩ ∧
      (evalEndCheck ⟨true, true, 1/100, 5, true⟩ ⟨some 3, 1⟩ 4).saved_best
        = false) := by
  have h1 := early_stopping_minimize_update_iff ⟨true, true, 1/100, 5, true⟩
    rfl rfl rfl 3 (601/200) (by norm_num) 1 (by norm_num)
  have h2 := early_stopping_minimize_update_iff ⟨true, true, 1/100, 5, true⟩
    rfl rfl rfl 3 4 (by norm_num) 1 (by norm_num)
  rw [if_pos (by norm_num)] at h1
  rw [if_neg (by norm_num)] at h2
  exact ⟨h1.1, h2.1⟩

/-! ### Loss engine — `_calculate_loss` (lines 2177–2356)

The encoders and the output dropout are opaque (spec: encoders are external
collaborators); `_calculate_loss` is embedded from the point where the
(post-dropout) query/context embedding matrices exist, as functions of those
matrices.  Loss tensors are represented symbolically by `LossTerm` (their
numeric values involve `log`/`exp`/`sqrt`, which the claims never need), while
everything the claims inspect — control flow, raised exceptions, argmax-based
diagnostics, the exact-on-ℚ mean-squared error used for a truthiness test — is
computed. -/

/-- Python exceptions that the embedded `_calculate_loss` can raise. -/
inductive PyError where
  | unboundLocal (name : String)
  | attributeError (msg : String)
  | runtimeError (msg : String)
  | typeError (msg : String)
  | zeroDivision
deriving DecidableEq

/-- Dot product of two rows. -/
def dotQ (u v : List ℚ) : ℚ := (List.zipWith (· * ·) u v).sum

/-- `torch.matmul(A, B.t())`: entry `(i, j)` is `dot(A_i, B_j)`. -/
def matmulT (A B : List (List ℚ)) : List (List ℚ) :=
  A.map (fun a => B.map (fun b => dotQ a b))

/-- The loss computation graph, kept symbolic.  `nllLoss s l` stands for
`NLLLoss(log_softmax(s), l)` with mean reduction; `tripletLoss` for
`TripletMarginLoss(margin)(anchors, positives, negatives)`; `bceLoss` for
`BCEWithLogitsLoss()(scores, labels)`; `mseLoss` for `MSELoss()(pred, target)`;
`smul`/`add` for scalar weighting and summation of loss terms. -/
inductive LossTerm where
  | nllLoss (scores : List (List ℚ)) (labels : List ℕ)
  | tripletLoss (margin : ℚ) (anchors positives negatives : List (List ℚ))
  | bceLoss (scores : List (List ℚ)) (labels : List (List ℚ))
  | mseLoss (pred target : List (List ℚ))
  | smul (c : ℚ) (t : LossTerm)
  | add (s t : LossTerm)
deriving DecidableEq

/-- Exact value of `MSELoss()(pred, target)`: mean of squared entrywise
differences (used only for the Python truthiness test on `reranking_loss`). -/
def mseValue (pred target : List (List ℚ)) : ℚ :=
  let sq := (pred.zip target).map
    (fun p => ((p.1.zip p.2).map (fun q => (q.1 - q.2) ^ 2)).sum)
  sq.sum / ((pred.map List.length).sum : ℚ)

/-- `tensor.reshape(rows, cols)` of a flat tensor: fails unless the element
count matches (line 2321). -/
def reshapeTo (rows cols : ℕ) (flat : List ℚ) : Except PyError (List (List ℚ)) :=
  if flat.length = rows * cols then
    Except.ok ((List.range rows).map (fun i => (flat.drop (i * cols)).take cols))
  else Except.error (PyError.runtimeError "shape invalid for input size")

/-- `labels` as passed by `_get_inputs_dict`: either a label tensor, or the
`(BCELabels, NLLLabels)` pair produced when `include_bce_loss` (line 2505). -/
inductive RLabels where
  | single (l : List ℕ)
  | pair (bceLabels : List (List ℚ)) (nllLabels : List ℕ)
deriving DecidableEq

/-- First index of the row maximum — the index component of
`torch.max(row, ...)`, which returns the first maximal entry.  `log_softmax`
(line 2277 etc.) subtracts one constant (`logsumexp`) from each row, which
preserves the position of each row's first maximum, so taking the argmax of
the raw similarity row is exact. -/
def rowArgmax (l : List ℚ) : ℕ :=
  (l.foldl (fun (st : ℕ × ℕ × ℚ) x =>
    if x > st.2.2 then (st.1 + 1, st.1, x) else (st.1 + 1, st.2.1, st.2.2))
    (0, 0, l.headD 0)).2.1

/-- `(max_idxs == torch.tensor(nll_labels)).sum()` (lines 2336–2339). -/
def correctPredictionsCount (softmaxScore : List (List ℚ)) (labels : List ℕ) : ℕ :=
  (((softmaxScore.map rowArgmax).zip labels).countP (fun p => p.1 = p.2))

/-- `(correct_predictions_count / len(nll_labels)) * 100` (lines 2340–2342). -/
def correctPredictionsPercentage (softmaxScore : List (List ℚ))
    (labels : List ℕ) : ℚ :=
  ((correctPredictionsCount softmaxScore labels : ℚ) / (labels.length : ℚ)) * 100

/-- The `RetrievalOutput` constructed at lines 2344–2354. -/
structure RetrievalOutput where
  loss : LossTerm
  context_outputs : List (List ℚ)
  query_outputs : List (List ℚ)
  correct_predictions_count : ℕ
  correct_predictions_percentage : ℚ
  reranking_context_outputs : Option (List (List ℚ))
  reranking_query_outputs : Option (List (List ℚ))
  reranking_loss : Option ℚ
  nll_loss : LossTerm
deriving DecidableEq

/-- Configuration flags consulted by `_calculate_loss`. -/
structure LossArgs where
  include_triplet_loss : Bool := false
  include_hard_negatives_for_triplets_only : Bool := false
  include_bce_loss : Bool := false
  include_nll_loss : Bool := false
  triplet_margin : ℚ := 5
  nll_lambda : ℚ := 1
  triplet_lambda : ℚ := 1
deriving DecidableEq

/-- Intermediate values at the end of the branching of `_calculate_loss`:
the loss, the similarity matrix whose log-softmax is `softmax_score`, the
`nll_labels` local, the `reranking_loss` local (outer `none` = never assigned:
reading it raises `UnboundLocalError`; `some none` = Python `None`), and the
`nll_loss` local (`none` = Python `None`). -/
structure LossLocals where
  loss : LossTerm
  simScore : List (List ℚ)
  nllLabels : List ℕ
  rerankingLossVar : Option (Option ℚ)
  nllLossVar : Option LossTerm

/-- The branch structure of `_calculate_loss` (lines 2239–2334).

* `include_triplet_loss` (lines 2239–2274): split contexts into the positive
  block (first `len(query_outputs)` rows) and the negative block (rest); NLL
  over positives only or over all contexts; in training mode additionally the
  triplet term — `TripletMarginLoss` broadcasts the query/negative batch
  dimensions and raises a `RuntimeError` when they differ and neither is 1
  (in particular when the negative block is empty and there are ≥ 2 queries).
  The local `reranking_loss` is never assigned in this branch.
* `include_bce_loss and training` (lines 2278–2290): unpack the label pair,
  BCE loss, plus NLL when `include_nll_loss` (else `nll_loss = None`).  The
  local `reranking_loss` is never assigned in this branch either.
* otherwise (lines 2291–2334): NLL loss; in `unified_rr` mode additionally the
  MSE regression of the reranking dot-products onto the cross-encoder teacher
  scores, with `reranking_loss` assigned; else `reranking_loss = None`. -/
def calculateLossBranches (args : LossArgs) (unified_rr training : Bool)
    (queryOutputs contextOutputs : List (List ℚ))
    (rerankingQueryOutputs rerankingContextOutputs : List (List ℚ))
    (rerankerTargetsFlat : List ℚ) (labels : RLabels) :
    Except PyError LossLocals :=
  if args.include_triplet_loss then
    let positives := contextOutputs.take queryOutputs.length
    let negatives := contextOutputs.drop queryOutputs.length
    match labels with
    | RLabels.pair _ _ =>
        Except.error (PyError.typeError "nll target must be a tensor")
    | RLabels.single nllLabels =>
        let simScore := if args.include_hard_negatives_for_triplets_only
          then matmulT queryOutputs positives
          else matmulT queryOutputs contextOutputs
        let nll := LossTerm.nllLoss simScore nllLabels
        if training then
          if queryOutputs.length ≠ negatives.length ∧ queryOutputs.length ≠ 1
              ∧ negatives.length ≠ 1 then
            Except.error (PyError.runtimeError
              "triplet loss batch size mismatch")
          else
            Except.ok ⟨LossTerm.add (LossTerm.smul args.nll_lambda nll)
                (LossTerm.smul args.triplet_lambda
                  (LossTerm.tripletLoss args.triplet_margin queryOutputs
                    positives negatives)),
              simScore, nllLabels, Option.none, some nll⟩
        else
          Except.ok ⟨nll, simScore, nllLabels, Option.none, some nll⟩
  else
    let simScore := matmulT queryOutputs contextOutputs
    if args.include_bce_loss && training then
      match labels with
      | RLabels.single _ =>
          Except.error (PyError.typeError "cannot unpack label tensor")
      | RLabels.pair bceLabels nllLabels =>
          let bce := LossTerm.bceLoss simScore bceLabels
          if args.include_nll_loss then
            let nll := LossTerm.nllLoss simScore nllLabels
            Except.ok ⟨LossTerm.add bce nll, simScore, nllLabels,
              Option.none, some nll⟩
          else
            Except.ok ⟨bce, simScore, nllLabels, Option.none, Option.none⟩
    else
      match labels with
      | RLabels.pair _ _ =>
          Except.error (PyError.typeError "nll target must be a tensor")
      | RLabels.single nllLabels =>
          let nll := LossTerm.nllLoss simScore nllLabels
          if unified_rr then
            let rerankDot := matmulT rerankingQueryOutputs
              rerankingContextOutputs
            match reshapeTo rerankDot.length
                (rerankingContextOutputs.length) rerankerTargetsFlat with
            | Except.error e => Except.error e
            | Except.ok target =>
                Except.ok ⟨LossTerm.add nll (LossTerm.mseLoss rerankDot target),
                  simScore, nllLabels, some (some (mseValue rerankDot target)),
                  some nll⟩
          else
            Except.ok ⟨nll, simScore, nllLabels, some Option.none, some nll⟩

/-- `_calculate_loss` (lines 2177–2356): the branch structure above followed
by the argmax diagnostics and the `RetrievalOutput` construction.  The
keyword arguments of `RetrievalOutput(...)` are evaluated in source order, so
the expression `reranking_loss.item() if reranking_loss else None`
(line 2352) — which raises `UnboundLocalError` when `reranking_loss` was
never assigned — runs before `nll_loss.item()` (line 2353), which raises
`AttributeError` when `nll_loss` is `None`. -/
def calculateLoss (args : LossArgs) (unified_rr training : Bool)
    (queryOutputs contextOutputs : List (List ℚ))
    (rerankingQueryOutputs rerankingContextOutputs : List (List ℚ))
    (rerankerTargetsFlat : List ℚ) (labels : RLabels) :
    Except PyError RetrievalOutput :=
  match calculateLossBranches args unified_rr training queryOutputs
      contextOutputs rerankingQueryOutputs rerankingContextOutputs
      rerankerTargetsFlat labels with
  | Except.error e => Except.error e
  | Except.ok locals =>
      if locals.nllLabels.length = 0 then Except.error PyError.zeroDivision
      else
        match locals.rerankingLossVar with
        | Option.none => Except.error (PyError.unboundLocal "reranking_loss")
        | some rlVal =>
            match locals.nllLossVar with
            | Option.none => Except.error (PyError.attributeError
                "NoneType object has no attribute item")
            | some nllTerm =>
                Except.ok
                  ⟨locals.loss, contextOutputs, queryOutputs,
                    correctPredictionsCount locals.simScore locals.nllLabels,
                    correctPredictionsPercentage locals.simScore
                      locals.nllLabels,
                    (if unified_rr then some rerankingContextOutputs
                      else Option.none),
                    (if unified_rr then some rerankingQueryOutputs
                      else Option.none),
                    (match rlVal with
                     | Option.none => Option.none
                     | some v => if v ≠ 0 then some v else Option.none),
                    nllTerm⟩

/-- C4: the claim that every loss-variant configuration makes
`_calculate_loss` return normally with a `RetrievalOutput` reporting
`correct_predictions_percentage` FAILS on the code.  The local
`reranking_loss` is assigned only in the default/unified branch (lines 2326,
2333), so with `include_triplet_loss` (training or evaluation mode, hard
negatives present or not) and with `include_bce_loss` during training (with or
without `include_nll_loss`), the construction of `RetrievalOutput` raises
`UnboundLocalError` at `reranking_loss.item() if reranking_loss else None`
(line 2352).  Only the default NLL path constructs the output.  This theorem
evaluates the code on a concrete batch in each of those configurations. -/
theorem calculate_loss_variants_unbound_local :
    (calculateLoss { include_triplet_loss := true } false true
        [[1], [0]] [[1], [0], [2], [3]] [] [] [] (RLabels.single [0, 1])
      = Except.error (PyError.unboundLocal "reranking_loss"))
    ∧ (calculateLoss { include_triplet_loss := true } false false
        [[1], [0]] [[1], [0]] [] [] [] (RLabels.single [0, 1])
      = Except.error (PyError.unboundLocal "reranking_loss"))
    ∧ (calculateLoss { include_bce_loss := true, include_nll_loss := true }
        false true [[1], [0]] [[1], [0]] [] [] []
        (RLabels.pair [[1, 0], [0, 1]] [0, 1])
      = Except.error (PyError.unboundLocal "reranking_loss"))
    ∧ (calculateLoss { include_bce_loss := true } false true
        [[1], [0]] [[1], [0]] [] [] []
        (RLabels.pair [[1, 0], [0, 1]] [0, 1])
      = Except.error (PyError.unboundLocal "reranking_loss"))
    ∧ (∃ out, calculateLoss {} false true
        [[1], [0]] [[1], [0]] [] [] [] (RLabels.single [0, 1])
      = Except.ok out) :=
  ⟨rfl, rfl, rfl, rfl, ⟨_, rfl⟩⟩

/-- C5: the claim that with `include_triplet_loss` and no hard negatives the
triplet term is skipped and the loss equals the NLL term alone FAILS on the
code: there is no emptiness guard, only `if self.context_encoder.training:`
(line 2263), so a training step on a batch of 2 queries whose context matrix
holds only the 2 positives (empty negative block) calls `TripletMarginLoss`
with an empty negative tensor, whose batch dimension 0 cannot broadcast
against the 2 queries — a `RuntimeError`, not a skipped term.  This theorem
evaluates the code at that failing input. -/
theorem calculate_loss_triplet_empty_negatives_error :
    calculateLoss { include_triplet_loss := true } false true
        [[1], [0]] [[1], [0]] [] [] [] (RLabels.single [0, 1])
      = Except.error (PyError.runtimeError "triplet loss batch size mismatch") :=
  rfl

/-- C8: the correct-prediction percentage returned by `_calculate_loss`
equals the number of rows of the softmax score matrix whose argmax column
equals that row's label, divided by the number of rows, times 100; and it
equals 100 exactly when every row's argmax column equals the label. -/
theorem correct_predictions_percentage_spec (S : List (List ℚ))
    (labels : List ℕ) (hlen : S.length = labels.length)
    (hpos : 0 < labels.length) :
    correctPredictionsPercentage S labels
        = (((S.zip labels).countP (fun p => rowArgmax p.1 = p.2) : ℚ)
            / (labels.length : ℚ)) * 100
      ∧ (correctPredictionsPercentage S labels = 100
          ↔ ∀ p ∈ S.zip labels, rowArgmax p.1 = p.2) := by
  have hcount : correctPredictionsCount S labels
      = (S.zip labels).countP (fun p => rowArgmax p.1 = p.2) := by
    unfold correctPredictionsCount
    rw [List.zip_map_left, List.countP_map]
    rfl
  have hziplen : (S.zip labels).length = labels.length := by
    rw [List.length_zip, hlen, min_self]
  constructor
  · rw [correctPredictionsPercentage, hcount]
  · rw [correctPredictionsPercentage, hcount]
    have hn : (labels.length : ℚ) ≠ 0 := by positivity
    constructor
    · intro h
      have hc : ((S.zip labels).countP (fun p => rowArgmax p.1 = p.2) : ℚ)
          = (labels.length : ℚ) := by
        field_simp at h
        linarith
      have : (S.zip labels).countP (fun p => rowArgmax p.1 = p.2)
          = (S.zip labels).length := by
        rw [hziplen]; exact_mod_cast hc
      intro p hp
      have := List.countP_eq_length.mp this p hp
      exact of_decide_eq_true this
    · intro h
      have : (S.zip labels).countP (fun p => rowArgmax p.1 = p.2)
          = (S.zip labels).length :=
        List.countP_eq_length.mpr (fun p hp => decide_eq_true (h p hp))
      rw [this, hziplen]
      field_simp

/-- Witness for C8 at `S = [[1, 2], [3, 0]]`, `labels = [1, 0]`: both rows'
argmaxes hit their labels, and the percentage is 100. -/
theorem correct_predictions_percentage_spec_witness :
    correctPredictionsPercentage [[1, 2], [3, 0]] [1, 0]
        = ((((([[1, 2], [3, 0]] : List (List ℚ)).zip [1, 0]).countP
            (fun p => rowArgmax p.1 = p.2)) : ℚ) / ((2 : ℕ) : ℚ)) * 100
      ∧ (correctPredictionsPercentage [[1, 2], [3, 0]] [1, 0] = 100
          ↔ ∀ p ∈ (([[1, 2], [3, 0]] : List (List ℚ)).zip [1, 0]),
              rowArgmax p.1 = p.2) :=
  correct_predictions_percentage_spec [[1, 2], [3, 0]] [1, 0]
    (by simp) (by simp)

/-! ### Unified reranking in `predict` (lines 1652–1711)

For each query `i`: `rerank_distances[i] = np.dot(reranking_query_outputs[i],
rerank_embeddings.T)` (`compute_rerank_distances`, lines 1701–1711);
`rerank_indices = np.argsort(rerank_distances, axis=1)` sorts ascending
(line 1664); then `passages`, `doc_ids`, `doc_vectors` and the `doc_dict`
fields `"passages"`, `"embeddings"`, `"rerank_embeddings"` are all re-indexed
by the same `rerank_indices[i]` (lines 1667–1689).  `np.argsort` returns some
permutation of `0..n-1` that sorts the values ascending; it is modelled by a
concrete sorting permutation. -/

/-- Row `i` of `compute_rerank_distances`: the query's reranking embedding
dotted with each retrieved candidate's stored reranking embedding. -/
def computeRerankDistances (queryEmbedding : List ℚ)
    (rerankEmbeddings : List (List ℚ)) : List ℚ :=
  rerankEmbeddings.map (fun e => dotQ queryEmbedding e)

/-- `np.argsort(values)`: the indices `0..n-1` sorted by their value. -/
def argsortAsc (values : List ℚ) : List ℕ :=
  List.insertionSort (fun i j => values.getD i 0 ≤ values.getD j 0)
    (List.range values.length)

/-- `[xs[j] for j in idx]`. -/
def permuteBy {α : Type} [Inhabited α] (idx : List ℕ) (xs : List α) : List α :=
  idx.map (fun j => xs.getD j default)

/-- The per-query data of one retrieved top-k result set: the `doc_dict`
payload fields together with the aligned `doc_ids` and `doc_vectors` rows. -/
structure RetrievedDocs (ι κ : Type) where
  passages : List κ
  embeddings : List (List ℚ)
  rerank_embeddings : List (List ℚ)
  doc_ids : List ι
  doc_vectors : List (List ℚ)

/-- The reranking step of `predict` for one query (lines 1659–1689). -/
def rerankOneQuery {ι κ : Type} [Inhabited ι] [Inhabited κ]
    (queryRerankEmbedding : List ℚ) (docs : RetrievedDocs ι κ) :
    RetrievedDocs ι κ :=
  let distances := computeRerankDistances queryRerankEmbedding
    docs.rerank_embeddings
  let idx := argsortAsc distances
  ⟨permuteBy idx docs.passages, permuteBy idx docs.embeddings,
    permuteBy idx docs.rerank_embeddings, permuteBy idx docs.doc_ids,
    permuteBy idx docs.doc_vectors⟩

/-- Indexing by `0..n-1` returns the list itself. -/
lemma map_getD_range {α : Type} [Inhabited α] (xs : List α) :
    (List.range xs.length).map (fun j => xs.getD j default) = xs := by
  induction xs with
  | nil => simp
  | cons x tl ih =>
      rw [List.length_cons, List.range_succ_eq_map, List.map_cons,
        List.map_map]
      have hmap : (List.range tl.length).map
            ((fun j => List.getD (x :: tl) j default) ∘ Nat.succ)
          = (List.range tl.length).map (fun j => tl.getD j default) := by
        apply List.map_congr_left
        intro a _
        simp [List.getD_cons_succ]
      rw [hmap, ih]
      simp [List.getD_cons_zero]

/-- Re-indexing by a permutation of `0..n-1` permutes a length-`n` list. -/
lemma permuteBy_perm {α : Type} [Inhabited α] (idx : List ℕ) (xs : List α)
    (hidx : idx.Perm (List.range xs.length)) :
    (permuteBy idx xs).Perm xs := by
  have h1 : (permuteBy idx xs).Perm
      ((List.range xs.length).map (fun j => xs.getD j default)) :=
    hidx.map _
  rw [map_getD_range] at h1
  exact h1

/-- `argsortAsc` is a permutation of `0..n-1`. -/
lemma argsortAsc_perm (values : List ℚ) :
    (argsortAsc values).Perm (List.range values.length) :=
  List.perm_insertionSort _ _

/-- The values re-indexed by `argsortAsc` are sorted ascending. -/
lemma argsortAsc_sorted (values : List ℚ) :
    List.Sorted (· ≤ ·) (permuteBy (argsortAsc values) values) := by
  haveI htot : IsTotal ℕ (fun i j => values.getD i 0 ≤ values.getD j 0) :=
    ⟨fun a b => le_total _ _⟩
  haveI htrans : IsTrans ℕ (fun i j => values.getD i 0 ≤ values.getD j 0) :=
    ⟨fun a b c hab hbc => le_trans hab hbc⟩
  have hs : List.Sorted (fun i j => values.getD i 0 ≤ values.getD j 0)
      (argsortAsc values) :=
    List.sorted_insertionSort _ _
  have : List.Pairwise (· ≤ ·)
      ((argsortAsc values).map (fun j => values.getD j 0)) :=
    List.Pairwise.map _ (fun a b h => h) hs
  unfold permuteBy
  exact this

/-- C6: in unified reranking mode, for every query in `predict` the returned
passages, doc ids, doc vectors, and the per-query `doc_dict` fields are all
permuted by one and the same permutation, namely one that sorts the
recomputed rerank dot-product scores in ascending order; in particular each
returned per-query list is a permutation of that query's originally retrieved
top-k candidates. -/
theorem predict_unified_rerank_consistent_permutation {ι κ : Type}
    [Inhabited ι] [Inhabited κ] (queryRerankEmbedding : List ℚ)
    (docs : RetrievedDocs ι κ)
    (hp : docs.passages.length = docs.rerank_embeddings.length)
    (he : docs.embeddings.length = docs.rerank_embeddings.length)
    (hi : docs.doc_ids.length = docs.rerank_embeddings.length)
    (hv : docs.doc_vectors.length = docs.rerank_embeddings.length) :
    ∃ idx : List ℕ,
      idx.Perm (List.range docs.rerank_embeddings.length)
      ∧ List.Sorted (· ≤ ·) (permuteBy idx (computeRerankDistances
          queryRerankEmbedding docs.rerank_embeddings))
      ∧ rerankOneQuery queryRerankEmbedding docs
          = ⟨permuteBy idx docs.passages, permuteBy idx docs.embeddings,
              permuteBy idx docs.rerank_embeddings,
              permuteBy idx docs.doc_ids, permuteBy idx docs.doc_vectors⟩
      ∧ (rerankOneQuery queryRerankEmbedding docs).passages.Perm docs.passages
      ∧ (rerankOneQuery queryRerankEmbedding docs).embeddings.Perm
          docs.embeddings
      ∧ (rerankOneQuery queryRerankEmbedding docs).rerank_embeddings.Perm
          docs.rerank_embeddings
      ∧ (rerankOneQuery queryRerankEmbedding docs).doc_ids.Perm docs.doc_ids
      ∧ (rerankOneQuery queryRerankEmbedding docs).doc_vectors.Perm
          docs.doc_vectors := by
  have hdlen : (computeRerankDistances queryRerankEmbedding
      docs.rerank_embeddings).length = docs.rerank_embeddings.length := by
    simp [computeRerankDistances]
  have hperm : (argsortAsc (computeRerankDistances queryRerankEmbedding
      docs.rerank_embeddings)).Perm
        (List.range docs.rerank_embeddings.length) := by
    have := argsortAsc_perm (computeRerankDistances queryRerankEmbedding
      docs.rerank_embeddings)
    rwa [hdlen] at this
  refine ⟨argsortAsc (computeRerankDistances queryRerankEmbedding
    docs.rerank_embeddings), hperm, argsortAsc_sorted _, rfl,
    ?_, ?_, ?_, ?_, ?_⟩
  · exact permuteBy_perm _ _ (by rw [hp]; exact hperm)
  · exact permuteBy_perm _ _ (by rw [he]; exact hperm)
  · exact permuteBy_perm _ _ hperm
  · exact permuteBy_perm _ _ (by rw [hi]; exact hperm)
  · exact permuteBy_perm _ _ (by rw [hv]; exact hperm)

/-- Witness for C6 on a concrete query with 3 retrieved candidates. -/
theorem predict_unified_rerank_consistent_permutation_witness :
    ∃ idx : List ℕ,
      idx.Perm (List.range
        (RetrievedDocs.rerank_embeddings (ι := ℕ) (κ := ℕ)
          ⟨[10, 20, 30], [[1], [2], [3]], [[3], [1], [2]], [100, 200, 300],
            [[5], [6], [7]]⟩).length)
      ∧ List.Sorted (· ≤ ·) (permuteBy idx (computeRerankDistances [1]
          (RetrievedDocs.rerank_embeddings (ι := ℕ) (κ := ℕ)
            ⟨[10, 20, 30], [[1], [2], [3]], [[3], [1], [2]], [100, 200, 300],
              [[5], [6], [7]]⟩)))
      ∧ rerankOneQuery [1]
          (⟨[10, 20, 30], [[1], [2], [3]], [[3], [1], [2]], [100, 200, 300],
            [[5], [6], [7]]⟩ : RetrievedDocs ℕ ℕ)
          = ⟨permuteBy idx [10, 20, 30], permuteBy idx [[1], [2], [3]],
              permuteBy idx [[3], [1], [2]], permuteBy idx [100, 200, 300],
              permuteBy idx [[5], [6], [7]]⟩
      ∧ (rerankOneQuery [1]
          (⟨[10, 20, 30], [[1], [2], [3]], [[3], [1], [2]], [100, 200, 300],
            [[5], [6], [7]]⟩ : RetrievedDocs ℕ ℕ)).passages.Perm [10, 20, 30]
      ∧ (rerankOneQuery [1]
          (⟨[10, 20, 30], [[1], [2], [3]], [[3], [1], [2]], [100, 200, 300],
            [[5], [6], [7]]⟩ : RetrievedDocs ℕ ℕ)).embeddings.Perm
          [[1], [2], [3]]
      ∧ (rerankOneQuery [1]
          (⟨[10, 20, 30], [[1], [2], [3]], [[3], [1], [2]], [100, 200, 300],
            [[5], [6], [7]]⟩ : RetrievedDocs ℕ ℕ)).rerank_embeddings.Perm
          [[3], [1], [2]]
      ∧ (rerankOneQuery [1]
          (⟨[10, 20, 30], [[1], [2], [3]], [[3], [1], [2]], [100, 200, 300],
            [[5], [6], [7]]⟩ : RetrievedDocs ℕ ℕ)).doc_ids.Perm [100, 200, 300]
      ∧ (rerankOneQuery [1]
          (⟨[10, 20, 30], [[1], [2], [3]], [[3], [1], [2]], [100, 200, 300],
            [[5], [6], [7]]⟩ : RetrievedDocs ℕ ℕ)).doc_vectors.Perm
          [[5], [6], [7]] :=
  predict_unified_rerank_consistent_permutation [1]
    ⟨[10, 20, 30], [[1], [2], [3]], [[3], [1], [2]], [100, 200, 300],
      [[5], [6], [7]]⟩ (by simp) (by simp) (by simp) (by simp)

/-! ### Metrics engine — `compute_metrics` (lines 1713–1837)

Texts are lists of characters.  Matching normalizes with Python
`.strip().lower()` and `.translate` deleting `string.punctuation` (the 32
ASCII punctuation characters); QA-style matching additionally removes spaces
and tests substring containment instead of equality.  The relevance matrices
are `np.zeros((len(gold_passages), retrieve_n_docs))` rows filled by the
loops at lines 1741–1787; `top_k_accuracy` is
`np.mean(np.sum(relevance_list_first_hit[:, :k], axis=1))` (lines 1803–1807).
-/

/-- A text, as a list of characters. -/
abbrev Text := List Char

/-- `string.punctuation`: the ASCII punctuation characters (codes 33–47,
58–64, 91–96, 123–126). -/
def pythonPunctuation : List Char :=
  ((List.range 128).filter (fun n =>
    (33 ≤ n ∧ n ≤ 47) ∨ (58 ≤ n ∧ n ≤ 64) ∨ (91 ≤ n ∧ n ≤ 96) ∨
    (123 ≤ n ∧ n ≤ 126))).map Char.ofNat

/-- Python `str.strip()`: remove leading and trailing whitespace. -/
def stripText (s : Text) : Text :=
  ((s.dropWhile Char.isWhitespace).reverse.dropWhile Char.isWhitespace).reverse

/-- `text.strip().lower().translate(str.maketrans("", "", string.punctuation))`
(lines 1753–1757). -/
def normalizeExact (s : Text) : Text :=
  ((stripText s).map Char.toLower).filter
    (fun c => !(pythonPunctuation.contains c))

/-- `text.strip().lower().replace(" ", "").translate(...)` — the QA-style
normalization (lines 1745–1749). -/
def normalizeQA (s : Text) : Text :=
  (((stripText s).map Char.toLower).filter (fun c => c ≠ Char.ofNat 32)).filter
    (fun c => !(pythonPunctuation.contains c))

/-- One gold/retrieved comparison: QA-style containment of the normalized
truth in the normalized document, or exact normalized equality. -/
def textMatch (qa : Bool) (truth d : Text) : Bool :=
  if qa then decide (normalizeQA truth <:+: normalizeQA d)
  else normalizeExact d == normalizeExact truth

/-- Whether a retrieved document matches any text of the relevant set
(inner loop at lines 1767–1787: the first matching relevant text triggers the
flag and `break`s). -/
def docRelevant (qa : Bool) (relevants : List Text) (d : Text) : Bool :=
  relevants.any (fun r => textMatch qa r d)

/-- A first-hit relevance row: the per-rank loop sets the flag at the first
rank whose document satisfies the predicate and stops flagging afterwards
(the `break` at lines 1751/1759, resp. the `sum(...) == 0` guard at
lines 1775/1785). -/
def firstHitRow {α : Type} (p : α → Bool) : List α → List Bool
  | [] => []
  | d :: rest =>
      if p d then true :: List.replicate rest.length false
      else false :: firstHitRow p rest

/-- First-hit row against the single gold passage (lines 1741–1759). -/
def firstHitRowGold (qa : Bool) (truth : Text) (docs : List Text) : List Bool :=
  firstHitRow (fun d => textMatch qa truth d) docs

/-- First-hit row against a relevant-docs set (lines 1765–1787). -/
def firstHitRowRel (qa : Bool) (relevants : List Text) (docs : List Text) :
    List Bool :=
  firstHitRow (fun d => docRelevant qa relevants d) docs

/-- All-hits row against a relevant-docs set: every matching rank flagged
(lines 1765–1787). -/
def allHitsRow (qa : Bool) (relevants : List Text) (docs : List Text) :
    List Bool :=
  docs.map (fun d => docRelevant qa relevants d)

/-- Extend a row to the `retrieve_n_docs` columns of the `np.zeros` matrix. -/
def padRow (n : ℕ) (r : List Bool) : List Bool :=
  r ++ List.replicate (n - r.length) false

/-- `np.mean` of a vector of rationals. -/
def meanQ (l : List ℚ) : ℚ := l.sum / (l.length : ℚ)

/-- The parts of `compute_metrics`' result needed by the claims. -/
structure MetricsOutput where
  relevance_first_hit : List (List Bool)
  relevance_all_hits : List (List Bool)
  top_k_accuracy : List (ℕ × ℚ)

/-- Python `max` over a nonempty list (`max([])` raises, handled separately). -/
def pyMax : List ℕ → ℕ
  | [] => 0
  | t :: ts => ts.foldl max t

/-- The first-hit relevance matrix of `compute_metrics` (lines 1738–1787):
one padded row per query, built against the gold passage when no
`relevant_docs` are supplied and against the relevant set otherwise. -/
def relevanceFirstHit (goldPassages : List Text) (docTexts : List (List Text))
    (relevantDocs : Option (List (List Text))) (qa : Bool)
    (retrieve_n_docs : ℕ) : List (List Bool) :=
  match relevantDocs with
  | Option.none =>
      (goldPassages.zip docTexts).map
        (fun p => padRow retrieve_n_docs (firstHitRowGold qa p.1 p.2))
  | Option.some rels =>
      (docTexts.zip rels).map
        (fun p => padRow retrieve_n_docs (firstHitRowRel qa p.2 p.1))

/-- The all-hits relevance matrix (aliased to the first-hit matrix when no
`relevant_docs` are supplied, line 1760). -/
def relevanceAllHits (goldPassages : List Text) (docTexts : List (List Text))
    (relevantDocs : Option (List (List Text))) (qa : Bool)
    (retrieve_n_docs : ℕ) : List (List Bool) :=
  match relevantDocs with
  | Option.none =>
      relevanceFirstHit goldPassages docTexts relevantDocs qa retrieve_n_docs
  | Option.some rels =>
      (docTexts.zip rels).map
        (fun p => padRow retrieve_n_docs (allHitsRow qa p.2 p.1))

/-- `compute_metrics` (lines 1713–1837), restricted to the relevance-matrix
construction and the top-k accuracies (the MRR/recall aggregations and the
extra user metrics are not consulted by any claim).  The `max(top_k_values)`
guard (lines 1729–1734) raises before the relevance matrices are built;
`max` of an empty list is itself a Python `ValueError`, raised first. -/
def computeMetrics (goldPassages : List Text) (docTexts : List (List Text))
    (relevantDocs : Option (List (List Text))) (qa : Bool)
    (retrieve_n_docs : ℕ) (topKValues : Option (List ℕ)) :
    Except String MetricsOutput :=
  if (topKValues.getD [1, 2, 3, 5, 10]).isEmpty then
    Except.error "max arg is an empty sequence"
  else if pyMax (topKValues.getD [1, 2, 3, 5, 10]) > retrieve_n_docs then
    Except.error "retrieve_n_docs must be >= max top_k_values"
  else
    let firstHit := relevanceFirstHit goldPassages docTexts relevantDocs qa
      retrieve_n_docs
    Except.ok
      ⟨firstHit,
        relevanceAllHits goldPassages docTexts relevantDocs qa retrieve_n_docs,
        ((topKValues.getD [1, 2, 3, 5, 10]).filter
            (fun k => k ≤ retrieve_n_docs)).map (fun k =>
          (k, meanQ (firstHit.map
            (fun row => (((row.take k).countP (fun b => b = true) : ℕ)
              : ℚ)))))⟩

/-- C7: for every call to `compute_metrics` where `max(top_k_values)` exceeds
`retrieve_n_docs`, a configuration error (`ValueError`) is raised before any
relevance-matrix construction or metric computation (the guard at lines
1729–1734 precedes everything else; in this embedding the error is returned
without constructing any matrix). -/
theorem compute_metrics_max_k_value_error (goldPassages : List Text)
    (docTexts : List (List Text)) (relevantDocs : Option (List (List Text)))
    (qa : Bool) (retrieve_n_docs : ℕ) (topKValues : Option (List ℕ))
    (hne : (topKValues.getD [1, 2, 3, 5, 10]).isEmpty = false)
    (hmax : pyMax (topKValues.getD [1, 2, 3, 5, 10]) > retrieve_n_docs) :
    computeMetrics goldPassages docTexts relevantDocs qa retrieve_n_docs
        topKValues
      = Except.error "retrieve_n_docs must be >= max top_k_values" := by
  unfold computeMetrics
  rw [hne]
  simp [hmax]

/-- Witness for C7: `top_k_values = [1, 5]` with `retrieve_n_docs = 3`. -/
theorem compute_metrics_max_k_value_error_witness :
    computeMetrics [] [] Option.none false 3 (some [1, 5])
      = Except.error "retrieve_n_docs must be >= max top_k_values" :=
  compute_metrics_max_k_value_error [] [] Option.none false 3 (some [1, 5])
    rfl (by decide)

/-- `firstHitRow` has the same length as the scanned document list. -/
lemma firstHitRow_length {α : Type} (p : α → Bool) (docs : List α) :
    (firstHitRow p docs).length = docs.length := by
  induction docs with
  | nil => rfl
  | cons d rest ih =>
      unfold firstHitRow
      by_cases hp : p d
      · simp [hp]
      · simp [hp, ih]

/-- A first-hit row contains at most one `true`. -/
lemma firstHitRow_countP_le_one {α : Type} (p : α → Bool) (docs : List α) :
    (firstHitRow p docs).countP (fun b => b = true) ≤ 1 := by
  induction docs with
  | nil => simp [firstHitRow]
  | cons d rest ih =>
      unfold firstHitRow
      by_cases hp : p d
      · rw [if_pos hp]
        have hz : (List.replicate rest.length false).countP
            (fun b => b = true) = 0 := by
          apply List.countP_eq_zero.mpr
          intro a ha
          simp [List.eq_of_mem_replicate ha]
        simp [List.countP_cons, hz]
      · rw [if_neg hp]
        simp only [List.countP_cons, decide_eq_true_eq, Bool.false_eq_true]
        simpa using ih

/-- Padding with `false` does not change the number of `true` entries. -/
lemma padRow_countP (n : ℕ) (r : List Bool) :
    (padRow n r).countP (fun b => b = true)
      = r.countP (fun b => b = true) := by
  unfold padRow
  rw [List.countP_append]
  have hz : (List.replicate (n - r.length) false).countP
      (fun b => b = true) = 0 := by
    apply List.countP_eq_zero.mpr
    intro a ha
    simp [List.eq_of_mem_replicate ha]
  omega

/-- Padding with `false` does not change any `getD _ false` lookup. -/
lemma padRow_getD (n : ℕ) (r : List Bool) (j : ℕ) :
    (padRow n r).getD j false = r.getD j false := by
  unfold padRow
  by_cases hj : j < r.length
  · exact List.getD_append _ _ _ _ hj
  · rw [List.getD_append_right _ _ _ _ (by omega)]
    have h1 : r.getD j false = false := by
      rw [List.getD_eq_getElem?_getD, List.getElem?_eq_none (by omega)]
      rfl
    have h2 : (List.replicate (n - r.length) false).getD
        (j - r.length) false = false := by
      rw [List.getD_eq_getElem?_getD, List.getElem?_replicate]
      rcases Nat.lt_or_ge (j - r.length) (n - r.length) with h | h
      · simp [h]
      · simp [Nat.not_lt.mpr h]
    rw [h1, h2]

/-- The flagged entries of a first-hit row: position `j` is `true` exactly
when document `j` matches and no earlier document does. -/
lemma firstHitRow_getD {α : Type} [Inhabited α] (p : α → Bool)
    (docs : List α) (j : ℕ) :
    (firstHitRow p docs).getD j false = true
      ↔ (j < docs.length ∧ p (docs.getD j default) = true
          ∧ ∀ i, i < j → p (docs.getD i default) = false) := by
  induction docs generalizing j with
  | nil => simp [firstHitRow]
  | cons d rest ih =>
      unfold firstHitRow
      by_cases hp : p d
      · rw [if_pos hp]
        cases j with
        | zero => simp [hp]
        | succ j =>
            simp only [List.getD_cons_succ]
            constructor
            · intro habs
              exfalso
              rw [List.getD_eq_getElem?_getD] at habs
              rcases Nat.lt_or_ge j (List.replicate rest.length false).length
                  with h | h
              · rw [List.getElem?_replicate_of_lt (by simpa using h)] at habs
                simp at habs
              · rw [List.getElem?_eq_none (by simpa using h)] at habs
                simp at habs
            · intro h
              exfalso
              have := h.2.2 0 (Nat.succ_pos _)
              rw [List.getD_cons_zero] at this
              rw [hp] at this
              exact Bool.true_eq_false.mp this
      · rw [if_neg hp]
        cases j with
        | zero =>
            simp only [List.getD_cons_zero]
            constructor
            · intro habs; simp at habs
            · intro h
              exfalso
              rw [h.2.1] at hp
              exact hp rfl
        | succ j =>
            simp only [List.getD_cons_succ, List.length_cons,
              Nat.succ_lt_succ_iff]
            rw [ih j]
            constructor
            · rintro ⟨h1, h2, h3⟩
              refine ⟨h1, h2, ?_⟩
              intro i hi
              cases i with
              | zero =>
                  rw [List.getD_cons_zero]
                  cases hpd : p d with
                  | false => rfl
                  | true => exact absurd hpd hp
              | succ i =>
                  rw [List.getD_cons_succ]
                  exact h3 i (Nat.succ_lt_succ_iff.mp hi)
            · rintro ⟨h1, h2, h3⟩
              refine ⟨h1, h2, ?_⟩
              intro i hi
              have := h3 (i + 1) (Nat.succ_lt_succ hi)
              rwa [List.getD_cons_succ] at this

/-- C10: in `compute_metrics`, for every query the constructed first-hit
relevance-matrix row contains at most one nonzero entry, and the flagged
column is exactly the first retrieved rank matching the gold passage (resp.,
with `relevant_docs` supplied, the first rank matching any relevant
document), even when multiple retrieved passages match. -/
theorem compute_metrics_first_hit_single_flag (qa : Bool) (truth : Text)
    (relevants : List Text) (docs : List Text) (n : ℕ) :
    ((padRow n (firstHitRowGold qa truth docs)).countP (fun b => b = true) ≤ 1
      ∧ ∀ j, (padRow n (firstHitRowGold qa truth docs)).getD j false = true
          ↔ (j < docs.length ∧ textMatch qa truth (docs.getD j []) = true
              ∧ ∀ i, i < j → textMatch qa truth (docs.getD i []) = false))
    ∧ ((padRow n (firstHitRowRel qa relevants docs)).countP
          (fun b => b = true) ≤ 1
      ∧ ∀ j, (padRow n (firstHitRowRel qa relevants docs)).getD j false = true
          ↔ (j < docs.length ∧ docRelevant qa relevants (docs.getD j []) = true
              ∧ ∀ i, i < j →
                docRelevant qa relevants (docs.getD i []) = false)) := by
  refine ⟨⟨?_, ?_⟩, ⟨?_, ?_⟩⟩
  · rw [padRow_countP]; exact firstHitRow_countP_le_one _ _
  · intro j
    rw [padRow_getD]
    exact firstHitRow_getD _ docs j
  · rw [padRow_countP]; exact firstHitRow_countP_le_one _ _
  · intro j
    rw [padRow_getD]
    exact firstHitRow_getD _ docs j

/-- Witness for C10: gold text `b` retrieved at ranks 2 and 3 of
`[a, b, b]` — only rank 2 is flagged. -/
theorem compute_metrics_first_hit_single_flag_witness :
    (((padRow 4 (firstHitRowGold false ([98].map Char.ofNat)
        [[97].map Char.ofNat, [98].map Char.ofNat, [98].map Char.ofNat])).countP
          (fun b => b = true) ≤ 1
      ∧ ∀ j, (padRow 4 (firstHitRowGold false ([98].map Char.ofNat)
          [[97].map Char.ofNat, [98].map Char.ofNat,
            [98].map Char.ofNat])).getD j false = true
          ↔ (j < ([[97].map Char.ofNat, [98].map Char.ofNat,
                [98].map Char.ofNat] : List Text).length
              ∧ textMatch false ([98].map Char.ofNat)
                  (([[97].map Char.ofNat, [98].map Char.ofNat,
                    [98].map Char.ofNat] : List Text).getD j []) = true
              ∧ ∀ i, i < j → textMatch false ([98].map Char.ofNat)
                  (([[97].map Char.ofNat, [98].map Char.ofNat,
                    [98].map Char.ofNat] : List Text).getD i []) = false))
    ∧ ((padRow 4 (firstHitRowRel false [[98].map Char.ofNat]
          [[97].map Char.ofNat, [98].map Char.ofNat,
            [98].map Char.ofNat])).countP (fun b => b = true) ≤ 1
      ∧ ∀ j, (padRow 4 (firstHitRowRel false [[98].map Char.ofNat]
          [[97].map Char.ofNat, [98].map Char.ofNat,
            [98].map Char.ofNat])).getD j false = true
          ↔ (j < ([[97].map Char.ofNat, [98].map Char.ofNat,
                [98].map Char.ofNat] : List Text).length
              ∧ docRelevant false [[98].map Char.ofNat]
                  (([[97].map Char.ofNat, [98].map Char.ofNat,
                    [98].map Char.ofNat] : List Text).getD j []) = true
              ∧ ∀ i, i < j → docRelevant false [[98].map Char.ofNat]
                  (([[97].map Char.ofNat, [98].map Char.ofNat,
                    [98].map Char.ofNat] : List Text).getD i []) = false))) :=
  compute_metrics_first_hit_single_flag false ([98].map Char.ofNat)
    [[98].map Char.ofNat]
    [[97].map Char.ofNat, [98].map Char.ofNat, [98].map Char.ofNat] 4

/-- A row with at most one `true` restricted to its first `k` entries counts
`1` when some entry there is `true` and `0` otherwise — `np.sum` of the
truncated row is the "has a first-hit within top-k" indicator. -/
lemma take_countP_indicator (row : List Bool) (k : ℕ)
    (h : row.countP (fun b => b = true) ≤ 1) :
    (row.take k).countP (fun b => b = true)
      = if (row.take k).any (fun b => b) then 1 else 0 := by
  have hsub : (row.take k).countP (fun b => b = true)
      ≤ row.countP (fun b => b = true) :=
    (List.take_sublist k row).countP_le _
  cases hany : (row.take k).any (fun b => b) with
  | true =>
      obtain ⟨b, hb, hbt⟩ := List.any_eq_true.mp hany
      have hpos : 0 < (row.take k).countP (fun b => b = true) :=
        List.countP_pos_iff.mpr ⟨b, hb, by simp [hbt]⟩
      rw [if_pos rfl]
      omega
  | false =>
      have hz : (row.take k).countP (fun b => b = true) = 0 := by
        apply List.countP_eq_zero.mpr
        intro a ha
        have := List.any_eq_false.mp hany a ha
        simp [this]
      rw [hz, if_neg (by simp)]

/-- Summing the truncated-row counts over rows with at most one `true` each
counts the rows with a hit inside the top-k window. -/
lemma sum_take_counts (rows : List (List Bool)) (k : ℕ)
    (h : ∀ r ∈ rows, r.countP (fun b => b = true) ≤ 1) :
    (rows.map (fun row =>
        (((row.take k).countP (fun b => b = true) : ℕ) : ℚ))).sum
      = ((rows.countP (fun row => (row.take k).any (fun b => b)) : ℕ) : ℚ) := by
  induction rows with
  | nil => simp
  | cons r tl ih =>
      rw [List.map_cons, List.sum_cons, List.countP_cons,
        ih (fun x hx => h x (List.mem_cons_of_mem _ hx))]
      rw [take_countP_indicator r k (h r (List.mem_cons_self _ _))]
      cases hany : (r.take k).any (fun b => b) with
      | true => simp [hany]; ring
      | false => simp [hany]

/-- C9: for every `k` in `top_k_values`, the aggregate `top_k_accuracy`
returned by `compute_metrics` equals the fraction of queries that have at
least one first-hit (a flagged entry of the first-hit relevance matrix)
within the first `k` retrieved ranks. -/
theorem compute_metrics_top_k_accuracy_fraction (goldPassages : List Text)
    (docTexts : List (List Text)) (relevantDocs : Option (List (List Text)))
    (qa : Bool) (retrieve_n_docs : ℕ) (topKValues : Option (List ℕ))
    (out : MetricsOutput)
    (hok : computeMetrics goldPassages docTexts relevantDocs qa
        retrieve_n_docs topKValues = Except.ok out) :
    out.top_k_accuracy
      = ((topKValues.getD [1, 2, 3, 5, 10]).filter
            (fun k => k ≤ retrieve_n_docs)).map
          (fun k => (k,
            ((out.relevance_first_hit.countP
                (fun row => (row.take k).any (fun b => b)) : ℕ) : ℚ)
              / ((out.relevance_first_hit.length : ℕ) : ℚ))) := by
  have hle : ∀ r ∈ relevanceFirstHit goldPassages docTexts relevantDocs qa
      retrieve_n_docs, r.countP (fun b => b = true) ≤ 1 := by
    intro r hr
    cases relevantDocs with
    | none =>
        obtain ⟨p, hp, rfl⟩ := List.mem_map.mp hr
        rw [padRow_countP]
        exact firstHitRow_countP_le_one _ _
    | some rels =>
        obtain ⟨p, hp, rfl⟩ := List.mem_map.mp hr
        rw [padRow_countP]
        exact firstHitRow_countP_le_one _ _
  unfold computeMetrics at hok
  by_cases h1 : (topKValues.getD [1, 2, 3, 5, 10]).isEmpty
  · rw [if_pos h1] at hok
    exact absurd hok (by simp)
  · rw [if_neg h1] at hok
    by_cases h2 : pyMax (topKValues.getD [1, 2, 3, 5, 10]) > retrieve_n_docs
    · rw [if_pos h2] at hok
      exact absurd hok (by simp)
    · rw [if_neg h2] at hok
      simp only [Except.ok.injEq] at hok
      subst hok
      apply List.map_congr_left
      intro k hk
      simp only [meanQ]
      rw [sum_take_counts _ k hle, List.length_map]

/-- Witness for C9: one query with gold text `b`, two retrieved texts
`[a, b]`, `retrieve_n_docs = 2`, `top_k_values = [1, 2]`. -/
theorem compute_metrics_top_k_accuracy_fraction_witness :
    (MetricsOutput.top_k_accuracy
      ⟨relevanceFirstHit ["b".toList] [["a".toList, "b".toList]]
          Option.none false 2,
        relevanceAllHits ["b".toList] [["a".toList, "b".toList]]
          Option.none false 2,
        (([1, 2] : List ℕ).filter (fun k => k ≤ 2)).map (fun k =>
          (k, meanQ ((relevanceFirstHit ["b".toList]
              [["a".toList, "b".toList]] Option.none false 2).map
            (fun row => (((row.take k).countP (fun b => b = true) : ℕ)
              : ℚ)))))⟩)
      = (((some [1, 2] : Option (List ℕ)).getD [1, 2, 3, 5, 10]).filter
            (fun k => k ≤ 2)).map
          (fun k => (k,
            (((MetricsOutput.relevance_first_hit
              ⟨relevanceFirstHit ["b".toList] [["a".toList, "b".toList]]
                  Option.none false 2,
                relevanceAllHits ["b".toList] [["a".toList, "b".toList]]
                  Option.none false 2,
                (([1, 2] : List ℕ).filter (fun k => k ≤ 2)).map (fun k =>
                  (k, meanQ ((relevanceFirstHit ["b".toList]
                      [["a".toList, "b".toList]] Option.none false 2).map
                    (fun row => (((row.take k).countP (fun b => b = true)
                      : ℕ) : ℚ)))))⟩).countP
                (fun row => (row.take k).any (fun b => b)) : ℕ) : ℚ)
              / (((MetricsOutput.relevance_first_hit
              ⟨relevanceFirstHit ["b".toList] [["a".toList, "b".toList]]
                  Option.none false 2,
                relevanceAllHits ["b".toList] [["a".toList, "b".toList]]
                  Option.none false 2,
                (([1, 2] : List ℕ).filter (fun k => k ≤ 2)).map (fun k =>
                  (k, meanQ ((relevanceFirstHit ["b".toList]
                      [["a".toList, "b".toList]] Option.none false 2).map
                    (fun row => (((row.take k).countP (fun b => b = true)
                      : ℕ) : ℚ)))))⟩).length : ℕ) : ℚ))) :=
  compute_metrics_top_k_accuracy_fraction ["b".toList]
    [["a".toList, "b".toList]] Option.none false 2 (some [1, 2]) _ rfl

end RetrievalModel
